import Mathlib

/-!
Verification development for the adaptive rule-selection core of the
real-time-security repository.

The Python sources embedded here (shallowly, over exact rationals):
  backend/app/services/fast_signals.py         (FastSignalEngine)
  backend/app/services/rule_metadata.py        (RuleRegistry and built-in rules)
  backend/app/services/rule_router.py          (RuleRouter)
  backend/app/services/schema_canonicalizer.py (SchemaCanonicalizer)

Modelling conventions:
  - A pandas DataFrame is a list of named columns of cells; a cell is null,
    a numeric value (exact rational, idealising float arithmetic), a string,
    or a parseable timestamp (seconds since epoch, idealising datetime).
  - The metadata dict is an association list from string keys to values.
  - A Python function that may raise is embedded with an Option result;
    none models a raised exception at the call site that the caller
    catches (predicates in the registry, signal functions in the engine).
  - Real time (datetime.now) is an explicit integer parameter of the
    temporal signal and of everything built on top of it.
-/

set_option maxRecDepth 1000000

attribute [local semireducible] Rat.add Rat.mul Rat.inv Rat.sub Rat.ofScientific

/-! ## Tabular data model -/

/-- A single cell of a tabular dataset.  num carries an exact rational in
place of a float; time carries seconds since an epoch in place of a value
that pandas to_datetime accepts; str is a value that to_datetime rejects. -/
inductive Cell where
  | null
  | num (q : ℚ)
  | str (s : String)
  | time (t : ℤ)
deriving DecidableEq

def Cell.isNull : Cell → Bool
  | .null => true
  | _ => false

def Cell.isNum : Cell → Bool
  | .num _ => true
  | _ => false

def Cell.isStr : Cell → Bool
  | .str _ => true
  | _ => false

def Cell.isTime : Cell → Bool
  | .time _ => true
  | _ => false

def Cell.numVal? : Cell → Option ℚ
  | .num q => some q
  | _ => none

def Cell.timeVal? : Cell → Option ℤ
  | .time t => some t
  | _ => none

/-- A dataset: ordered named columns, each an ordered list of cells
(rows are read off positionally, indexes are the standard RangeIndex). -/
structure DataFrame where
  cols : List (String × List Cell)
deriving DecidableEq

namespace DataFrame

/-- Number of rows (pandas len(df)); every column of a well-formed frame
has this length. -/
def nrows (df : DataFrame) : Nat :=
  match df.cols with
  | [] => 0
  | c :: _ => c.2.length

def ncols (df : DataFrame) : Nat := df.cols.length

def colNames (df : DataFrame) : List String := df.cols.map Prod.fst

/-- Column access df[name]: first column with the given name, if any. -/
def colCells? (df : DataFrame) (name : String) : Option (List Cell) :=
  (df.cols.find? (fun p => p.1 == name)).map Prod.snd

/-- Membership test name in df.columns. -/
def hasCol (df : DataFrame) (name : String) : Bool :=
  (df.colCells? name).isSome

/-- Total count of null cells, df.isnull().sum().sum(). -/
def nullCount (df : DataFrame) : Nat :=
  (df.cols.map (fun p => p.2.countP Cell.isNull)).sum

/-- Well-formedness: distinct column names (pandas dict-like access used by
the sources presupposes this) and all columns of equal length. -/
def WF (df : DataFrame) : Prop :=
  df.cols.Pairwise (fun a b => a.1 ≠ b.1) ∧ ∀ p ∈ df.cols, p.2.length = df.nrows

instance : DecidablePred WF := fun df => by
  unfold WF; exact instDecidableAnd

end DataFrame

/-- Cells that pandas notna / dropna keep. -/
def nonNullCells (cells : List Cell) : List Cell :=
  cells.filter (fun c => !c.isNull)

/-- The numeric values of a column (dropna on a numeric column). -/
def numVals (cells : List Cell) : List ℚ :=
  cells.filterMap Cell.numVal?

/-- Column dtype test for df.select_dtypes(include=[np.number]): every cell
is a number or a missing value (float NaN). -/
def isNumericColumn (cells : List Cell) : Bool :=
  cells.all (fun c => c.isNull || c.isNum)

/-! ## Metadata mapping (the mutable file_metadata dict) -/

/-- A value stored in the metadata dict: a string or a number. -/
inductive MetaVal where
  | s (v : String)
  | q (v : ℚ)
deriving DecidableEq

/-- The metadata dict, as an association list in insertion order. -/
abbrev Meta := List (String × MetaVal)

/-- meta.get(k): first binding of the key, if any. -/
def metaGet (m : Meta) (k : String) : Option MetaVal :=
  (m.find? (fun p => p.1 == k)).map Prod.snd

/-- meta[k] = v with Python dict semantics: overwrite in place if the key
is bound, else append a new binding. -/
def metaSet (m : Meta) (k : String) (v : MetaVal) : Meta :=
  if m.any (fun p => p.1 == k) then
    m.map (fun p => if p.1 == k then (k, v) else p)
  else
    m ++ [(k, v)]

/-! ## Fast Signal Engine (fast_signals.py) -/

/-- Result of a fast signal (fast_signals.FastSignal).  The value and
metadata diagnostic fields of the dataclass are not consumed by any
operation modelled here and are omitted. -/
structure FastSignal where
  name : String
  risk_score : ℚ
  confidence : ℚ
deriving DecidableEq

/-- data_quality_signal: null if the frame is empty, else risk
min(2 * missing ratio, 1) at confidence 0.8. -/
def data_quality_signal (df : DataFrame) (_meta : Meta) : Option FastSignal :=
  if df.nrows = 0 then none
  else some ⟨"data_quality",
    min (2 * ((df.nullCount : ℚ) / ((df.nrows : ℚ) * (df.ncols : ℚ)))) 1, 4/5⟩

/-- file_size_signal: always produced; risk 0.3 above 10000 rows, 0.1 above
5000, else 0, at confidence 0.6. -/
def file_size_signal (df : DataFrame) (_meta : Meta) : Option FastSignal :=
  some ⟨"file_size",
    if 10000 < df.nrows then 3/10 else if 5000 < df.nrows then 1/10 else 0, 3/5⟩

/-- amount_distribution_signal.  Null when the amount column is absent, all
null, or has fewer than 5 non-null values; also none when a non-null cell is
not numeric (pandas raises computing std of such a column and
calculate_all_signals catches it).  The source tests cv > 3 with
cv = std/mean when mean is nonzero and cv = 0 otherwise; since std is the
nonnegative square root of the sample variance v, that test is equivalent
over the reals to 0 < mean and 9 * mean^2 < v, which is the exact-rational
form used here. -/
def amount_distribution_signal (df : DataFrame) (_meta : Meta) : Option FastSignal :=
  match df.colCells? "amount" with
  | none => none
  | some cells =>
    if (nonNullCells cells).isEmpty then none
    else if !(cells.all (fun c => c.isNull || c.isNum)) then none
    else
      let xs := numVals cells
      if xs.length < 5 then none
      else
        let r1 : ℚ := if xs.dedup.length = 1 then 2/5 else 0
        let m : ℚ := xs.sum / (xs.length : ℚ)
        let v : ℚ := (xs.map (fun x => (x - m)^2)).sum / ((xs.length : ℚ) - 1)
        let r2 : ℚ := if 0 < m ∧ 9 * m^2 < v then 3/10 else 0
        let r3 : ℚ := if (4/5 : ℚ) < (xs.countP (fun x => x.den == 1) : ℚ) / (xs.length : ℚ) then 1/5 else 0
        some ⟨"amount_distribution", min (r1 + r2 + r3) 1, 7/10⟩

/-- The parseable timestamps of a column after pd.to_datetime(...).dropna():
nulls are dropped; defined only when every non-null cell parses. -/
def parsedTimes (cells : List Cell) : List ℤ :=
  cells.filterMap Cell.timeVal?

/-- Consecutive differences timestamps.diff().dropna(), in file order. -/
def timeDeltas (cells : List Cell) : List ℤ :=
  let ts := parsedTimes cells
  (ts.zip ts.tail).map (fun p => p.2 - p.1)

/-- temporal_pattern_signal at evaluation time now (seconds).  Null when the
timestamp column is absent or all null, when any non-null cell fails to
parse (to_datetime raises and the signal's own try/except returns None), or
when fewer than 5 values parse.  365 days = 31536000 seconds; one minute =
60 seconds. -/
def temporal_pattern_signal (now : ℤ) (df : DataFrame) (_meta : Meta) : Option FastSignal :=
  match df.colCells? "timestamp" with
  | none => none
  | some cells =>
    if (nonNullCells cells).isEmpty then none
    else if !(cells.all (fun c => c.isNull || c.isTime)) then none
    else
      let ts := parsedTimes cells
      if ts.length < 5 then none
      else
        let deltas := timeDeltas cells
        let r1 : ℚ := if 0 < deltas.length ∧
            (deltas.length : ℚ) * (4/5) < (deltas.countP (fun d => decide (d < 60)) : ℚ)
          then 2/5 else 0
        let r2 : ℚ := if 0 < ts.countP (fun t => decide (now < t)) then 3/10 else 0
        let r3 : ℚ := if (ts.length : ℚ) * (1/2) < (ts.countP (fun t => decide (t < now - 31536000)) : ℚ)
          then 1/5 else 0
        some ⟨"temporal_pattern", min (r1 + r2 + r3) 1, 3/5⟩

/-- user_behavior_signal.  Null when the user_id column is absent or all
null or has fewer than 2 distinct non-null values (value_counts drops
nulls).  Ratios are taken against len(df) as in the source. -/
def user_behavior_signal (df : DataFrame) (_meta : Meta) : Option FastSignal :=
  match df.colCells? "user_id" with
  | none => none
  | some cells =>
    let nn := nonNullCells cells
    if nn.isEmpty then none
    else
      let uniq := nn.dedup
      if uniq.length < 2 then none
      else
        let maxCount := (uniq.map (fun v => nn.count v)).foldr max 0
        let r1 : ℚ := if (4/5 : ℚ) < (maxCount : ℚ) / (df.nrows : ℚ) then 2/5 else 0
        let r2 : ℚ := if (9/10 : ℚ) < (uniq.length : ℚ) / (df.nrows : ℚ) ∧ 100 < df.nrows
          then 1/5 else 0
        some ⟨"user_behavior", min (r1 + r2) 1, 7/10⟩

/-- FastSignalEngine.calculate_all_signals: run the five registered signals
in registration order; a signal that returns None or raises is skipped and
the others still run. -/
def calculate_all_signals (now : ℤ) (df : DataFrame) (meta : Meta) : List FastSignal :=
  (data_quality_signal df meta).toList ++
  (file_size_signal df meta).toList ++
  (amount_distribution_signal df meta).toList ++
  (temporal_pattern_signal now df meta).toList ++
  (user_behavior_signal df meta).toList

/-- FastSignalEngine.get_aggregate_risk_score: 0 on the empty list, 0 when
the total confidence weight is 0, else the confidence-weighted mean of the
risk scores. -/
def get_aggregate_risk_score (signals : List FastSignal) : ℚ :=
  if signals.isEmpty then 0
  else
    let total := (signals.map FastSignal.confidence).sum
    if total = 0 then 0
    else ((signals.map (fun s => s.risk_score * s.confidence)).sum) / total

/-! ## Rule Registry (rule_metadata.py) -/

inductive RuleCategory where
  | financial
  | temporal
  | behavioral
  | inventory
  | network
  | ml_anomaly
deriving DecidableEq

inductive RuleCost where
  | cheap
  | medium
  | expensive
deriving DecidableEq

/-- The string payload of the RuleCost str-enum member (RuleCost.value in
the source; this is what the registry's sort key compares). -/
def RuleCost.value : RuleCost → String
  | .cheap => "cheap"
  | .medium => "medium"
  | .expensive => "expensive"

/-- The intended cost ordering cheap < medium < expensive as an ordinal
(the spec's reading of the tier; used to state claims about ordering). -/
def RuleCost.ordinal : RuleCost → Nat
  | .cheap => 0
  | .medium => 1
  | .expensive => 2

/-- A rule applicability predicate.  The condition returns none to model a
raised exception (the registry treats that as false and never propagates). -/
structure RulePredicate where
  name : String
  condition : DataFrame → Meta → Option Bool
  description : String

structure RuleMetadata where
  name : String
  category : RuleCategory
  cost : RuleCost
  predicates : List RulePredicate
  tags : List String
  priority : Nat
  description : String
  confidence_threshold : ℚ
  risk_threshold : ℚ

/-- The registry's rule table (self.rules), in dict insertion order. -/
abbrev Registry := List RuleMetadata

/-- RuleRegistry.register_rule: overwrite by name keeping position, else
append (Python dict assignment semantics). -/
def register_rule (reg : Registry) (m : RuleMetadata) : Registry :=
  if reg.any (fun r => r.name == m.name) then
    reg.map (fun r => if r.name == m.name then m else r)
  else
    reg ++ [m]

/-- RuleRegistry.get_rule_metadata / self.rules[name]. -/
def lookup_rule (reg : Registry) (n : String) : Option RuleMetadata :=
  reg.find? (fun r => r.name == n)

/-- Evaluate one predicate; a raised exception (none) counts as false. -/
def evalPredicate (p : RulePredicate) (df : DataFrame) (meta : Meta) : Bool :=
  (p.condition df meta).getD false

/-- A rule is applicable iff every one of its predicates evaluates true. -/
def ruleApplicable (m : RuleMetadata) (df : DataFrame) (meta : Meta) : Bool :=
  m.predicates.all (fun p => evalPredicate p df meta)

/-- Lexicographic code-point order on strings, as Python compares the cost
labels; stated on the character lists so that it evaluates by kernel
reduction. -/
def str_le (a b : String) : Prop := a.toList ≤ b.toList

instance : DecidableRel str_le := fun a b => by unfold str_le; infer_instance

/-- The sort key of RuleRegistry.get_applicable_rules: ascending in
(-priority, cost.value), i.e. descending priority with the enum's string
payload as the (lexical!) tiebreaker. -/
def applicable_key_rel (a b : RuleMetadata) : Prop :=
  b.priority < a.priority ∨ (a.priority = b.priority ∧ str_le a.cost.value b.cost.value)

instance : DecidableRel applicable_key_rel := fun a b => by
  unfold applicable_key_rel; infer_instance

instance : IsTotal RuleMetadata applicable_key_rel := by
  constructor
  intro a b
  rcases Nat.lt_trichotomy a.priority b.priority with h | h | h
  · exact Or.inr (Or.inl h)
  · rcases le_total a.cost.value.toList b.cost.value.toList with hs | hs
    · exact Or.inl (Or.inr ⟨h, hs⟩)
    · exact Or.inr (Or.inr ⟨h.symm, hs⟩)
  · exact Or.inl (Or.inl h)

instance : IsTrans RuleMetadata applicable_key_rel := by
  constructor
  rintro a b c (hab | ⟨hab, hab'⟩) (hbc | ⟨hbc, hbc'⟩)
  · exact Or.inl (hbc.trans hab)
  · exact Or.inl (by omega)
  · exact Or.inl (by omega)
  · exact Or.inr ⟨by omega, le_trans hab' hbc'⟩

/-- RuleRegistry.get_applicable_rules: keep the rules whose predicates all
pass (an exception in a predicate counts as false), then stable-sort by
(-priority, cost.value) and return the names.  The source sorts the name
list with a dict-lookup key; since registry names are unique this equals
stable-sorting the metadata records themselves. -/
def get_applicable_rules (reg : Registry) (df : DataFrame) (meta : Meta) : List String :=
  (List.insertionSort applicable_key_rel
    (reg.filter (fun m => ruleApplicable m df meta))).map RuleMetadata.name

/-! ### The built-in rules (RuleRegistry._register_default_rules) -/

def has_amount_field : RulePredicate :=
  ⟨"has_amount_field",
    fun df _ => some (df.hasCol "amount" && !(nonNullCells ((df.colCells? "amount").getD [])).isEmpty),
    "Data must have amount field with values"⟩

def sufficient_data : RulePredicate :=
  ⟨"sufficient_data", fun df _ => some (decide (10 ≤ df.nrows)),
    "Need at least 10 transactions for statistical analysis"⟩

def has_amount_merchant : RulePredicate :=
  ⟨"has_amount_merchant", fun df _ => some (df.hasCol "amount" && df.hasCol "merchant"),
    "Need amount and merchant fields"⟩

def has_timestamp : RulePredicate :=
  ⟨"has_timestamp", fun df _ => some (df.hasCol "timestamp"),
    "Need timestamp for time-based grouping"⟩

def not_inventory_only : RulePredicate :=
  ⟨"not_inventory_only",
    fun _ meta => some (!(metaGet meta "file_type" == some (MetaVal.s "inventory"))),
    "Skip for inventory files (24/7 operations)"⟩

def has_user_timestamp : RulePredicate :=
  ⟨"has_user_timestamp", fun df _ => some (df.hasCol "user_id" && df.hasCol "timestamp"),
    "Need user_id and timestamp for user behavior analysis"⟩

/-- multiple_users raises KeyError when the user_id column is absent; the
registry catches that and treats it as false. -/
def multiple_users : RulePredicate :=
  ⟨"multiple_users",
    fun df _ =>
      match df.colCells? "user_id" with
      | none => none
      | some cells => some (decide (1 < (nonNullCells cells).dedup.length)),
    "Need multiple users for pattern detection"⟩

def sufficient_data_for_ml : RulePredicate :=
  ⟨"sufficient_data_for_ml", fun df _ => some (decide (50 ≤ df.nrows)),
    "Need at least 50 transactions for ML analysis"⟩

def has_numeric_features : RulePredicate :=
  ⟨"has_numeric_features",
    fun df _ => some (decide (2 ≤ df.cols.countP (fun p => isNumericColumn p.2))),
    "Need at least 2 numeric features for ML"⟩

/-- not_high_risk_already compares meta.get('risk_score', 0) with 0.8; a
non-numeric stored value would raise in Python (caught as false). -/
def not_high_risk_already : RulePredicate :=
  ⟨"not_high_risk_already",
    fun _ meta =>
      match metaGet meta "risk_score" with
      | some (MetaVal.q v) => some (decide (v < 4/5))
      | some (MetaVal.s _) => none
      | none => some (decide ((0 : ℚ) < 4/5)),
    "Skip if already high risk (early termination)"⟩

def is_inventory_file : RulePredicate :=
  ⟨"is_inventory_file",
    fun _ meta => some (metaGet meta "file_type" == some (MetaVal.s "inventory")),
    "Only for inventory files"⟩

def has_quantity_field : RulePredicate :=
  ⟨"has_quantity_field", fun df _ => some (df.hasCol "quantity"),
    "Need quantity field for inventory analysis"⟩

def high_value_transactions_rule : RuleMetadata :=
  ⟨"high_value_transactions", .financial, .cheap, [has_amount_field, sufficient_data],
    ["financial", "amount", "statistical"], 8,
    "Detect unusually high-value transactions using 95th percentile", 1/2, 0⟩

def duplicate_transactions_rule : RuleMetadata :=
  ⟨"duplicate_transactions", .financial, .cheap, [has_amount_merchant, has_timestamp],
    ["financial", "duplicate", "merchant"], 7,
    "Detect duplicate transactions by amount, merchant, and time", 1/2, 0⟩

def off_hours_transactions_rule : RuleMetadata :=
  ⟨"off_hours_transactions", .temporal, .cheap, [has_timestamp, not_inventory_only],
    ["temporal", "hours", "business"], 6,
    "Detect transactions outside normal business hours", 1/2, 0⟩

def rapid_successive_transactions_rule : RuleMetadata :=
  ⟨"rapid_successive_transactions", .behavioral, .medium, [has_user_timestamp, multiple_users],
    ["behavioral", "user", "velocity"], 7,
    "Detect rapid successive transactions from same user", 1/2, 0⟩

def anomaly_detection_rule : RuleMetadata :=
  ⟨"anomaly_detection", .ml_anomaly, .expensive,
    [sufficient_data_for_ml, has_numeric_features, not_high_risk_already],
    ["ml", "anomaly", "expensive"], 5,
    "Machine learning anomaly detection using Isolation Forest", 1/2, 0⟩

def inventory_movement_anomalies_rule : RuleMetadata :=
  ⟨"inventory_movement_anomalies", .inventory, .medium, [is_inventory_file, has_quantity_field],
    ["inventory", "movement", "quantity"], 6,
    "Detect unusual inventory movement patterns", 1/2, 0⟩

/-- The process-wide registry populated by _register_default_rules: six
register_rule calls on an empty registry. -/
def rule_registry : Registry :=
  [high_value_transactions_rule, duplicate_transactions_rule, off_hours_transactions_rule,
   rapid_successive_transactions_rule, anomaly_detection_rule,
   inventory_movement_anomalies_rule].foldl register_rule []

/-! ## Rule Router (rule_router.py) -/

/-- Per-tier cost estimates in milliseconds (RuleRouter.cost_estimates). -/
def cost_estimates : RuleCost → ℚ
  | .cheap => 10
  | .medium => 100
  | .expensive => 1000

structure RuleExecutionPlan where
  rules_to_execute : List String
  estimated_cost : ℚ
  risk_threshold : ℚ
  early_termination_threshold : ℚ
  execution_order : List String
deriving DecidableEq

/-- RuleRouter._filter_rules_by_risk_and_cost: drop names missing from the
registry, drop expensive rules when risk < 0.3 and the file type is not
financial, drop rules whose risk_threshold exceeds the risk. -/
def filter_rules_by_risk_and_cost (reg : Registry) (rules : List String)
    (risk_score : ℚ) (meta : Meta) : List String :=
  rules.filter (fun n =>
    match lookup_rule reg n with
    | none => false
    | some m =>
      (!(decide (m.cost = RuleCost.expensive) && decide (risk_score < 3/10) &&
         !(decide (metaGet meta "file_type" = some (MetaVal.s "financial"))))) &&
      !(decide (risk_score < m.risk_threshold)))

/-- Descending-priority order used inside each cost group. -/
def priority_rel (a b : String × RuleMetadata) : Prop :=
  b.2.priority ≤ a.2.priority

instance : DecidableRel priority_rel := fun a b => by unfold priority_rel; infer_instance

instance : IsTotal (String × RuleMetadata) priority_rel := by
  constructor; intro a b; unfold priority_rel; exact (le_total _ _).symm

instance : IsTrans (String × RuleMetadata) priority_rel := by
  constructor; intro a b c hab hbc; exact le_trans hbc hab

/-- The names paired with their registry records;  names not found in the
registry are skipped (the source's if not rule_meta: continue). -/
def rulesWithMeta (reg : Registry) (names : List String) : List (String × RuleMetadata) :=
  names.filterMap (fun n => (lookup_rule reg n).map (fun m => (n, m)))

/-- One cost group, stable-sorted by descending priority. -/
def costGroup (c : RuleCost) (wm : List (String × RuleMetadata)) : List (String × RuleMetadata) :=
  List.insertionSort priority_rel (wm.filter (fun p => decide (p.2.cost = c)))

/-- RuleRouter._order_rules_for_execution: partition into cheap, medium and
expensive groups (a single loop with if/elif/else in the source), sort each
group by descending priority, and concatenate cheap ++ medium ++ expensive. -/
def order_rules_for_execution (reg : Registry) (rules : List String) : List String :=
  let wm := rulesWithMeta reg rules
  ((costGroup .cheap wm) ++ (costGroup .medium wm) ++ (costGroup .expensive wm)).map Prod.fst

/-- RuleRouter._calculate_estimated_cost. -/
def calculate_estimated_cost (reg : Registry) (rules : List String) : ℚ :=
  (rules.map (fun n =>
    match lookup_rule reg n with
    | some m => cost_estimates m.cost
    | none => 0)).sum

/-- RuleRouter.create_execution_plan.  Returns the plan together with the
metadata dict as it stands after the in-place write of risk_score (the
only mutation the router performs); the registry and the evaluation time
now are explicit parameters of the embedding. -/
def create_execution_plan (now : ℤ) (reg : Registry) (df : DataFrame) (meta : Meta) :
    RuleExecutionPlan × Meta :=
  let fast_signals := calculate_all_signals now df meta
  let aggregate_risk₀ := get_aggregate_risk_score fast_signals
  let aggregate_risk := max aggregate_risk₀ (1/10)
  let meta' := metaSet meta "risk_score" (MetaVal.q aggregate_risk)
  let applicable_rules := get_applicable_rules reg df meta'
  let filtered_rules := filter_rules_by_risk_and_cost reg applicable_rules aggregate_risk meta'
  let execution_order := order_rules_for_execution reg filtered_rules
  let estimated_cost := calculate_estimated_cost reg execution_order
  let early_termination_threshold : ℚ := if 7/10 < aggregate_risk then 9/10 else 4/5
  (⟨execution_order, estimated_cost, 3/10, early_termination_threshold, execution_order⟩, meta')

/-- RuleRouter.should_terminate_early. -/
def should_terminate_early (current_risk_score threshold : ℚ) : Prop :=
  threshold ≤ current_risk_score

/-! ## Schema Canonicalizer (schema_canonicalizer.py) -/

/-- Lowercased characters of a column name with surrounding whitespace
stripped, as col.lower().strip() produces (stated on character lists so
that it evaluates by kernel reduction). -/
def normColChars (s : String) : List Char :=
  let ws := fun c : Char => c == ' ' || c == '\t' || c == '\n' || c == '\r'
  (((s.toList.map Char.toLower).dropWhile ws).reverse.dropWhile ws).reverse

/-- Substring containment, the Python test sub in s on character lists. -/
def containsChars (pat : List Char) : List Char → Bool
  | [] => pat.isEmpty
  | c :: rest => pat.isPrefixOf (c :: rest) || containsChars pat rest

/-- SchemaCanonicalizer.detect_file_type: count indicator substrings among
the normalised column names (2 points each), add the secondary heuristics
(1 point each), and return the best category with max's first-key-wins tie
break over the dict order inventory, financial, security_logs; confidence
is min(score / 10, 1). -/
def detect_file_type (df : DataFrame) : String × ℚ :=
  let cols := df.cols.map (fun p => normColChars p.1)
  let indicatorScore := fun (inds : List String) =>
    2 * inds.countP (fun i => cols.any (fun c => containsChars i.toList c))
  let invScore := indicatorScore ["item_code", "movement_id", "quantity", "item_name", "movement_type"]
    + (if cols.any (fun c => containsChars "out".toList c) then 1 else 0)
  let finScore := indicatorScore ["transaction_id", "payment_method", "amount", "merchant", "currency"]
    + (if cols.any (fun c => containsChars "card".toList c || containsChars "payment".toList c) then 1 else 0)
  let secScore := indicatorScore ["log_id", "event_id", "user_agent", "source_ip", "action"]
    + (if cols.any (fun c => containsChars "login".toList c || containsChars "auth".toList c) then 1 else 0)
  let best :=
    if finScore ≤ invScore ∧ secScore ≤ invScore then ("inventory", invScore)
    else if secScore ≤ finScore then ("financial", finScore)
    else ("security_logs", secScore)
  (best.1, min ((best.2 : ℚ) / 10) 1)

/-- SchemaCanonicalizer.field_mappings for a detected file type: the
canonical fields in declaration order, each with its ordered alias list. -/
def field_mappings (file_type : String) : List (String × List String) :=
  if file_type = "inventory" then
    [("id", ["movement_id", "transaction_id", "id"]),
     ("timestamp", ["date", "time", "datetime", "timestamp"]),
     ("amount", ["total_value", "value", "cost", "amount", "price"]),
     ("merchant", ["item_name", "product", "item_code", "merchant"]),
     ("location", ["location", "warehouse", "store"]),
     ("user_id", ["employee_id", "user", "staff_id", "user_id"]),
     ("quantity", ["quantity", "qty", "count"])]
  else if file_type = "financial" then
    [("id", ["transaction_id", "id", "txn_id"]),
     ("timestamp", ["timestamp", "date", "created_at", "time"]),
     ("amount", ["amount", "value", "total", "sum"]),
     ("merchant", ["merchant", "store", "vendor", "business"]),
     ("location", ["location", "address", "city", "country"]),
     ("user_id", ["user_id", "customer_id", "account_id", "client_id"]),
     ("payment_method", ["payment_method", "method", "type", "card_type"]),
     ("ip_address", ["ip_address", "ip", "client_ip"]),
     ("device_info", ["device_info", "device", "user_agent", "browser"])]
  else if file_type = "security_logs" then
    [("id", ["log_id", "event_id", "id"]),
     ("timestamp", ["timestamp", "time", "datetime", "created_at"]),
     ("user_id", ["user_id", "username", "user", "account"]),
     ("ip_address", ["ip_address", "ip", "source_ip"]),
     ("device_info", ["user_agent", "device", "browser", "os"]),
     ("location", ["location", "country", "city", "region"])]
  else []

/-- detected_schema: for each canonical field the first alias present in
the dataset, recorded as (source column, canonical field) in loop order. -/
def detected_schema (df : DataFrame) (mapping : List (String × List String)) :
    List (String × String) :=
  mapping.filterMap (fun cf => (cf.2.find? (fun a => df.hasCol a)).map (fun a => (a, cf.1)))

/-- The source columns not consumed by the alias mapping, in column order. -/
def unmapped_columns (df : DataFrame) (mapping : List (String × List String)) : List String :=
  df.colNames.filter (fun c => decide (c ∉ (detected_schema df mapping).map Prod.fst))

/-- A column frame under construction, with the length of its index.  This
mirrors the pandas frame canonical_df that the source grows one column
assignment at a time starting from pd.DataFrame(). -/
structure PFrame where
  cols : List (String × List Cell)
  idx : Nat

/-- One column assignment canonical_df[name] = value with pandas semantics:
a scalar None broadcasts over the current (possibly empty) index; assigning
a non-empty Series to a frame whose index is empty first adopts the Series
index, reindexing the existing columns with nulls (_ensure_valid_index);
otherwise the Series is aligned to the current index label by label
(both are RangeIndexes, so: truncate or null-pad to the index length). -/
def assign_column (f : PFrame) (name : String) (v : Option (List Cell)) : PFrame :=
  match v with
  | none => ⟨f.cols ++ [(name, List.replicate f.idx Cell.null)], f.idx⟩
  | some cells =>
    if f.idx = 0 ∧ cells.length ≠ 0 then
      ⟨(f.cols.map (fun p => (p.1, List.replicate cells.length Cell.null))) ++ [(name, cells)],
       cells.length⟩
    else
      ⟨f.cols ++ [(name, cells.take f.idx ++ List.replicate (f.idx - cells.length) Cell.null)],
       f.idx⟩

/-- The sequence of column assignments canonicalize_schema performs: each
canonical field bound to its first matching alias column (or None when no
alias matches), then every unmapped source column under a raw_ name. -/
def assign_ops (df : DataFrame) (mapping : List (String × List String)) :
    List (String × Option (List Cell)) :=
  (mapping.map (fun cf =>
    (cf.1, (cf.2.find? (fun a => df.hasCol a)).bind (fun a => df.colCells? a))))
  ++ ((unmapped_columns df mapping).map (fun c => ("raw_" ++ c, df.colCells? c)))

/-- Fold the assignments over the initially empty frame. -/
def build_frame (ops : List (String × Option (List Cell))) : PFrame :=
  ops.foldl (fun f op => assign_column f op.1 op.2) ⟨[], 0⟩

/-- FileMetadata produced by the canonicalizer. -/
structure FileMetadata where
  file_type : String
  detected_schema : List (String × String)
  confidence : ℚ
  row_count : Nat
  has_timestamp : Bool
  has_amount : Bool
  has_user_id : Bool
  risk_score : ℚ
deriving DecidableEq

/-- Floor of a nonnegative rational (used by the interpolated quantile). -/
def floorQNat (q : ℚ) : Nat := (q.num / (q.den : ℤ)).toNat

/-- The 0.99 quantile with pandas' linear interpolation between order
statistics. -/
def quantile99 (xs : List ℚ) : ℚ :=
  let sorted := List.insertionSort (· ≤ ·) xs
  let h : ℚ := ((xs.length : ℚ) - 1) * (99/100)
  let i : Nat := floorQNat h
  let lo := sorted.getD i 0
  let hi := sorted.getD (i + 1) lo
  lo + (h - (i : ℚ)) * (hi - lo)

/-- Largest numeric value of a list (df['amount'].max() over the numeric
cells). -/
def maxList (xs : List ℚ) : ℚ :=
  match xs with
  | [] => 0
  | x :: rest => rest.foldl max x

/-- SchemaCanonicalizer._calculate_risk_score on the canonical frame.
Comparisons against the amount and quantity columns range over the numeric
cells (null comparisons are falsy in pandas; no claim depends on this
value).  On an empty frame pandas produces NaN for the missing-cell ratio;
that degenerate value is modelled as 0 and, again, no claim reads it.  The
timestamp parse check adds 0.2 exactly when some cell is an unparseable
string (pd.to_datetime raises, caught by the local try/except). -/
def calculate_risk_score (cf : DataFrame) (file_type : String) : ℚ :=
  let cellCount := cf.nrows * cf.ncols
  let r0 : ℚ := (if cellCount = 0 then 0 else (cf.nullCount : ℚ) / (cellCount : ℚ)) * (3/10)
  let amountCol := (cf.colCells? "amount").getD []
  let hasAmount := cf.hasCol "amount" && !(nonNullCells amountCol).isEmpty
  let amounts := numVals amountCol
  let negatives := amounts.countP (fun x => decide (x < 0))
  let r1 : ℚ := if hasAmount && decide (0 < negatives)
    then min ((negatives : ℚ) / (cf.nrows : ℚ)) (1/5) else 0
  let r2 : ℚ := if hasAmount && !amounts.isEmpty && decide (quantile99 amounts * 10 < maxList amounts)
    then 1/10 else 0
  let tsCol := (cf.colCells? "timestamp").getD []
  let r3 : ℚ := if cf.hasCol "timestamp" && !(nonNullCells tsCol).isEmpty && tsCol.any Cell.isStr
    then 1/5 else 0
  let qtyCol := (cf.colCells? "quantity").getD []
  let r4 : ℚ := if decide (file_type = "inventory") && cf.hasCol "quantity" &&
      (numVals qtyCol).any (fun x => decide (x < 0))
    then 1/10 else 0
  min (r0 + r1 + r2 + r3 + r4) 1

/-- SchemaCanonicalizer.canonicalize_schema.  The error result models the
uncaught KeyError raised while building FileMetadata when the canonical
frame lacks one of the columns timestamp, amount, user_id that the
metadata constructor reads unconditionally. -/
def canonicalize_schema (df : DataFrame) : Except String (DataFrame × FileMetadata) :=
  let ftc := detect_file_type df
  let mapping := field_mappings ftc.1
  let schema := detected_schema df mapping
  let frame := build_frame (assign_ops df mapping)
  let cf : DataFrame := ⟨frame.cols⟩
  let risk := calculate_risk_score cf ftc.1
  match cf.colCells? "timestamp" with
  | none => .error "timestamp"
  | some tsCol =>
    match cf.colCells? "amount" with
    | none => .error "amount"
    | some amountCol =>
      match cf.colCells? "user_id" with
      | none => .error "user_id"
      | some userCol =>
        .ok (cf, ⟨ftc.1, schema, ftc.2, df.nrows,
          tsCol.any (fun c => !c.isNull), amountCol.any (fun c => !c.isNull),
          userCol.any (fun c => !c.isNull), risk⟩)

/-! ## Helper lemmas: metadata dict -/

theorem metaGet_map_set_self (l : Meta) (k : String) (v : MetaVal) :
    metaGet (l.map (fun p => if p.1 == k then (k, v) else p)) k
      = if l.any (fun p => p.1 == k) then some v else none := by
  induction l with
  | nil => rfl
  | cons p rest ih =>
    by_cases hp : p.1 = k
    · simp [metaGet, List.find?, hp]
    · have hp' : (p.1 == k) = false := by simp [hp]
      simp only [List.map_cons, List.any_cons, hp', Bool.false_or]
      simpa [metaGet, List.find?, hp'] using ih

theorem metaGet_map_set_ne (l : Meta) (k k' : String) (v : MetaVal) (h : k' ≠ k) :
    metaGet (l.map (fun p => if p.1 == k then (k, v) else p)) k' = metaGet l k' := by
  have hkk : (k == k') = false := by simp; exact fun e => h e.symm
  induction l with
  | nil => rfl
  | cons p rest ih =>
    by_cases hp : p.1 = k
    · have hp2 : (p.1 == k') = false := by rw [hp]; exact hkk
      simp only [List.map_cons]
      rw [show (if p.1 == k then (k, v) else p) = (k, v) by simp [hp]]
      simpa [metaGet, List.find?, hkk, hp2] using ih
    · have hp' : (p.1 == k) = false := by simp [hp]
      simp only [List.map_cons, hp', Bool.false_eq_true, if_false]
      by_cases hq : p.1 = k'
      · simp [metaGet, List.find?, hq]
      · have hq' : (p.1 == k') = false := by simp [hq]
        simpa [metaGet, List.find?, hq'] using ih

theorem metaGet_append_single_self (l : Meta) (k : String) (v : MetaVal)
    (h : l.any (fun p => p.1 == k) = false) :
    metaGet (l ++ [(k, v)]) k = some v := by
  induction l with
  | nil => simp [metaGet, List.find?]
  | cons p rest ih =>
    simp only [List.any_cons, Bool.or_eq_false_iff] at h
    simpa [metaGet, List.find?, h.1] using ih h.2

theorem metaGet_append_single_ne (l : Meta) (k k' : String) (v : MetaVal) (h : k' ≠ k) :
    metaGet (l ++ [(k, v)]) k' = metaGet l k' := by
  have hkk : (k == k') = false := by simp; exact fun e => h e.symm
  induction l with
  | nil => simp [metaGet, List.find?, hkk]
  | cons p rest ih =>
    by_cases hq : p.1 = k'
    · simp [metaGet, List.find?, hq]
    · have hq' : (p.1 == k') = false := by simp [hq]
      simpa [metaGet, List.find?, hq'] using ih

theorem metaGet_metaSet_self (m : Meta) (k : String) (v : MetaVal) :
    metaGet (metaSet m k v) k = some v := by
  unfold metaSet
  split
  · rename_i hany
    rw [metaGet_map_set_self, if_pos hany]
  · rename_i hany
    exact metaGet_append_single_self m k v
      (by revert hany; cases m.any (fun p => p.1 == k) <;> simp)

theorem metaGet_metaSet_ne (m : Meta) (k k' : String) (v : MetaVal) (h : k' ≠ k) :
    metaGet (metaSet m k v) k' = metaGet m k' := by
  unfold metaSet
  split
  · exact metaGet_map_set_ne m k k' v h
  · exact metaGet_append_single_ne m k k' v h

/-! ## Claim C10 -/

/-- Claim C10: for every dataset and metadata mapping, create_execution_plan
with the built-in registry mutates only the risk_score key of the metadata,
setting it to max(aggregate risk, 0.1); every other key keeps its prior
value.  (The dataset argument is read-only throughout the embedding: the
built-in signals and predicates are pure readers, so the frame-effect on the
dataset is purity by construction.) -/
theorem claim_C10 (now : ℤ) (df : DataFrame) (meta : Meta) :
    metaGet (create_execution_plan now rule_registry df meta).2 "risk_score"
      = some (MetaVal.q (max (get_aggregate_risk_score (calculate_all_signals now df meta)) (1/10)))
    ∧ ∀ k, k ≠ "risk_score" →
      metaGet (create_execution_plan now rule_registry df meta).2 k = metaGet meta k := by
  have h2 : (create_execution_plan now rule_registry df meta).2
      = metaSet meta "risk_score"
          (MetaVal.q (max (get_aggregate_risk_score (calculate_all_signals now df meta)) (1/10))) := rfl
  rw [h2]
  exact ⟨metaGet_metaSet_self _ _ _, fun k hk => metaGet_metaSet_ne _ _ _ _ hk⟩

/-- Witness for C10 at a concrete one-column dataset and a metadata dict
holding a file_type binding, which the router leaves untouched. -/
theorem claim_C10_witness :
    metaGet (create_execution_plan 0 rule_registry ⟨[("a", [Cell.num 1])]⟩
        [("file_type", MetaVal.s "inventory")]).2 "file_type"
      = some (MetaVal.s "inventory") :=
  ((claim_C10 0 ⟨[("a", [Cell.num 1])]⟩ [("file_type", MetaVal.s "inventory")]).2
    "file_type" (by decide)).trans (by decide)

/-! ## Claim C9 -/

/-- Claim C9: get_applicable_rules returns exactly the names of registry
rules all of whose predicates evaluate to true (logical AND); a predicate
that raises (condition = none) counts as false via evalPredicate and no
exception escapes (the embedding is total), so every returned rule
satisfies all of its own predicates on re-evaluation and the other rules
are still considered. -/
theorem claim_C9 (reg : Registry) (df : DataFrame) (meta : Meta) (n : String) :
    n ∈ get_applicable_rules reg df meta ↔
      ∃ m, m ∈ reg ∧ m.name = n ∧ ∀ p ∈ m.predicates, evalPredicate p df meta = true := by
  unfold get_applicable_rules
  rw [List.mem_map]
  constructor
  · rintro ⟨m, hm, rfl⟩
    rw [List.mem_insertionSort, List.mem_filter] at hm
    exact ⟨m, hm.1, rfl, by simpa [ruleApplicable, List.all_eq_true] using hm.2⟩
  · rintro ⟨m, hmem, rfl, happ⟩
    exact ⟨m, (List.mem_insertionSort _).mpr
      (List.mem_filter.mpr ⟨hmem, by simpa [ruleApplicable, List.all_eq_true] using happ⟩), rfl⟩

/-! ## Claim C4 -/

/-- Claim C4 (code bug): canonicalize_schema raises instead of returning on
a dataset detected as security_logs.  The security_logs field mapping has
no amount canonical field, yet the FileMetadata constructor unconditionally
reads canonical_df['amount']; the resulting KeyError is uncaught.  This
evaluation exhibits the failure at a five-row dataset with single column
log_id. -/
theorem claim_C4_security_keyerror :
    canonicalize_schema
      ⟨[("log_id", [Cell.str "a", Cell.str "b", Cell.str "c", Cell.str "d", Cell.str "e"])]⟩
      = .error "amount" := by
  rfl

/-! ## Claim C8 -/

/-- Counterexample for C8: with exactly 80% of the consecutive deltas under
one minute (4 of 5), the strict comparison in the source withholds the
clustering contribution: the signal is produced with risk score 0, not
0.4.  (now = 2000 puts every timestamp in the past and none beyond 365
days, isolating the clustering term.) -/
theorem claim_C8_counterexample :
    (timeDeltas [Cell.time 1000, Cell.time 1010, Cell.time 1020, Cell.time 1030,
        Cell.time 1040, Cell.time 2000]).length = 5 ∧
    (timeDeltas [Cell.time 1000, Cell.time 1010, Cell.time 1020, Cell.time 1030,
        Cell.time 1040, Cell.time 2000]).countP (fun d => decide (d < 60)) = 4 ∧
    temporal_pattern_signal 2000
      ⟨[("timestamp", [Cell.time 1000, Cell.time 1010, Cell.time 1020, Cell.time 1030,
          Cell.time 1040, Cell.time 2000])]⟩ []
      = some ⟨"temporal_pattern", 0, 3/5⟩ := by
  refine ⟨rfl, rfl, ?_⟩
  decide

/-- Claim C8 as amended: the clustering contribution requires strictly more
than 80% of the consecutive deltas under one minute; then the produced
temporal_pattern risk score is at least 0.4. -/
theorem claim_C8_amended (now : ℤ) (df : DataFrame) (meta : Meta) (cells : List Cell)
    (hcol : df.colCells? "timestamp" = some cells)
    (hparse : cells.all (fun c => c.isNull || c.isTime) = true)
    (hlen : 5 ≤ (parsedTimes cells).length)
    (hclust : ((timeDeltas cells).length : ℚ) * (4/5)
      < ((timeDeltas cells).countP (fun d => decide (d < 60)) : ℚ)) :
    ∃ s, temporal_pattern_signal now df meta = some s ∧ 2/5 ≤ s.risk_score := by
  have h0 : parsedTimes cells ≠ [] := by
    intro h; rw [h] at hlen; simp at hlen
  obtain ⟨t, ht⟩ := List.exists_mem_of_ne_nil _ h0
  obtain ⟨c, hc, hct⟩ := List.mem_filterMap.mp ht
  have hcnn : c ∈ nonNullCells cells := by
    cases c with
    | time t' => exact List.mem_filter.mpr ⟨hc, rfl⟩
    | null => simp [Cell.timeVal?] at hct
    | num q => simp [Cell.timeVal?] at hct
    | str s => simp [Cell.timeVal?] at hct
  have hne : (nonNullCells cells).isEmpty = false := by
    cases hnn : nonNullCells cells with
    | nil => rw [hnn] at hcnn; exact absurd hcnn (List.not_mem_nil _)
    | cons a l => rfl
  have hdpos : 0 < (timeDeltas cells).length := by
    cases hd : timeDeltas cells with
    | nil => rw [hd] at hclust; norm_num at hclust
    | cons a l => simp
  have hlen' : ¬ ((parsedTimes cells).length < 5) := by omega
  unfold temporal_pattern_signal
  rw [hcol]
  simp only [hne, hparse, Bool.not_true, Bool.false_eq_true, if_false, if_neg hlen']
  refine ⟨_, rfl, ?_⟩
  show (2/5 : ℚ) ≤ min _ 1
  rw [if_pos ⟨hdpos, hclust⟩]
  refine le_min ?_ (by norm_num)
  have h2 : (0:ℚ) ≤ (if 0 < (parsedTimes cells).countP (fun t => decide (now < t))
      then (3/10 : ℚ) else 0) := by split_ifs <;> norm_num
  have h3 : (0:ℚ) ≤ (if ((parsedTimes cells).length : ℚ) * (1/2)
        < ((parsedTimes cells).countP (fun t => decide (t < now - 31536000)) : ℚ)
      then (1/5 : ℚ) else 0) := by split_ifs <;> norm_num
  linarith

/-- Witness for C8 amended: six timestamps with all five deltas (100% >
80%) under a minute; the signal is produced and its risk includes 0.4. -/
theorem claim_C8_witness :
    ∃ s, temporal_pattern_signal 100
        ⟨[("timestamp", [Cell.time 0, Cell.time 10, Cell.time 20, Cell.time 30,
            Cell.time 40, Cell.time 50])]⟩ []
      = some s ∧ 2/5 ≤ s.risk_score :=
  claim_C8_amended 100 _ [] _ rfl (by decide) (by decide) (by decide)

/-! ## Claim C2 -/

/-- A probe registry with two rules of equal priority whose cost tiers are
medium and expensive, registered in the order expensive-first. -/
def c2_experiment_registry : Registry :=
  [⟨"exp_rule", .ml_anomaly, .expensive, [], [], 5, "expensive probe rule", 1/2, 0⟩,
   ⟨"med_rule", .behavioral, .medium, [], [], 5, "medium probe rule", 1/2, 0⟩].foldl
    register_rule []

def claim_priority_of (reg : Registry) (n : String) : Nat :=
  match lookup_rule reg n with
  | some m => m.priority
  | none => 0

def claim_cost_ordinal_of (reg : Registry) (n : String) : Nat :=
  match lookup_rule reg n with
  | some m => m.cost.ordinal
  | none => 0

/-- The ordering claimed for get_applicable_rules: descending priority,
ties broken by ascending ordinal cost tier cheap, medium, expensive. -/
def ordinal_sorted (reg : Registry) (names : List String) : Prop :=
  List.Chain' (fun a b => claim_priority_of reg b < claim_priority_of reg a ∨
    (claim_priority_of reg a = claim_priority_of reg b ∧
     claim_cost_ordinal_of reg a ≤ claim_cost_ordinal_of reg b)) names

/-- Counterexample for C2: the registry sort key uses the enum's string
payload, and "expensive" sorts lexically before "medium"; with two
equal-priority rules the returned order is expensive before medium,
violating the claimed ordinal cost order. -/
theorem claim_C2_counterexample :
    get_applicable_rules c2_experiment_registry ⟨[]⟩ [] = ["exp_rule", "med_rule"] ∧
    ¬ ordinal_sorted c2_experiment_registry ["exp_rule", "med_rule"] := by
  constructor
  · decide
  · intro h
    unfold ordinal_sorted at h
    have := List.chain'_cons.mp h
    revert this
    decide

/-- The ordering the code actually guarantees for two returned names: the
later name never has higher priority, and on equal priority the earlier
name's cost label is lexically no greater. -/
def lex_sorted_rel (reg : Registry) (n₁ n₂ : String) : Prop :=
  ∀ m₁ m₂, lookup_rule reg n₁ = some m₁ → lookup_rule reg n₂ = some m₂ →
    (m₂.priority < m₁.priority ∨
      (m₁.priority = m₂.priority ∧ str_le m₁.cost.value m₂.cost.value))

theorem lookup_rule_self {reg : Registry} (hnodup : (reg.map RuleMetadata.name).Nodup)
    {m : RuleMetadata} (hm : m ∈ reg) : lookup_rule reg m.name = some m := by
  induction reg with
  | nil => cases hm
  | cons r rest ih =>
    rw [List.map_cons, List.nodup_cons] at hnodup
    rcases List.mem_cons.mp hm with rfl | hm'
    · simp [lookup_rule, List.find?]
    · have hne : (r.name == m.name) = false := by
        simp only [beq_eq_false_iff_ne, ne_eq]
        intro he
        exact hnodup.1 (he ▸ List.mem_map_of_mem RuleMetadata.name hm')
      simpa [lookup_rule, List.find?, hne] using ih hnodup.2 hm'

/-- Claim C2 as amended: for every registry with distinct rule names, every
dataset and every metadata mapping, get_applicable_rules is ordered by
descending priority with ties broken by ascending LEXICOGRAPHIC order of
the cost label string ("cheap" < "expensive" < "medium"), not by the
ordinal tier order. -/
theorem claim_C2_amended (reg : Registry) (df : DataFrame) (meta : Meta)
    (hnodup : (reg.map RuleMetadata.name).Nodup) :
    List.Pairwise (lex_sorted_rel reg) (get_applicable_rules reg df meta) := by
  unfold get_applicable_rules
  rw [List.pairwise_map]
  have hsorted : List.Pairwise applicable_key_rel
      (List.insertionSort applicable_key_rel (reg.filter (fun m => ruleApplicable m df meta))) :=
    List.sorted_insertionSort _ _
  refine hsorted.imp_of_mem ?_
  intro a b ha hb hr m₁ m₂ h₁ h₂
  have ha' : a ∈ reg := (List.mem_filter.mp ((List.mem_insertionSort _).mp ha)).1
  have hb' : b ∈ reg := (List.mem_filter.mp ((List.mem_insertionSort _).mp hb)).1
  rw [lookup_rule_self hnodup ha'] at h₁
  rw [lookup_rule_self hnodup hb'] at h₂
  cases h₁
  cases h₂
  exact hr

/-- Witness for C2 amended at the built-in registry and a small dataset. -/
theorem claim_C2_witness :
    (rule_registry.map RuleMetadata.name).Nodup ∧
    List.Pairwise (lex_sorted_rel rule_registry)
      (get_applicable_rules rule_registry ⟨[("amount", [Cell.num 1])]⟩ []) :=
  ⟨by decide, claim_C2_amended _ _ _ (by decide)⟩

/-! ## Claim C1 -/

/-- A 60-row dataset with extreme amount variance (coefficient of variation
well above 3) and two numeric columns; half the cells of the second column
are missing, which drives the data-quality signal up. -/
def c1_dataset : DataFrame :=
  ⟨[("amount", List.replicate 59 (Cell.num 1) ++ [Cell.num 1000]),
    ("other", List.replicate 30 (Cell.num 2) ++ List.replicate 30 Cell.null)]⟩

/-- Claim C1 as amended: on a 60-row dataset with extreme amount variance
and two numeric columns the aggregate risk is 5/14 (about 0.36; it cannot
reach 0.9 at this size, see the counterexample theorem), so the plan's
early_termination_threshold is 0.8, and anomaly_detection stays scheduled:
0.36 is at least 0.3, so the low-risk expensive-rule exclusion does not
fire, and 0.36 is below the 0.8 bound of not_high_risk_already. -/
theorem claim_C1_amended :
    get_aggregate_risk_score (calculate_all_signals 0 c1_dataset []) = 5/14 ∧
    (create_execution_plan 0 rule_registry c1_dataset []).1.rules_to_execute
      = ["high_value_transactions", "anomaly_detection"] ∧
    (create_execution_plan 0 rule_registry c1_dataset []).1.early_termination_threshold
      = 4/5 := by
  refine ⟨by decide, ?_, ?_⟩ <;> decide

/-! ## Helper lemmas: signal bounds -/

theorem data_quality_bounds {df : DataFrame} {meta : Meta} {s : FastSignal}
    (h : data_quality_signal df meta = some s) :
    0 ≤ s.risk_score ∧ s.risk_score ≤ 1 ∧ s.confidence = 4/5 := by
  unfold data_quality_signal at h
  split at h
  · exact absurd h (by simp)
  · rw [Option.some.injEq] at h
    subst h
    exact ⟨le_min (by positivity) (by norm_num), min_le_right _ _, rfl⟩

theorem file_size_bounds {df : DataFrame} {meta : Meta} {s : FastSignal}
    (h : file_size_signal df meta = some s) :
    0 ≤ s.risk_score ∧ s.risk_score ≤ 1 ∧ s.confidence = 3/5 := by
  unfold file_size_signal at h
  rw [Option.some.injEq] at h
  subst h
  refine ⟨?_, ?_, rfl⟩ <;> split_ifs <;> norm_num

theorem amount_distribution_bounds {df : DataFrame} {meta : Meta} {s : FastSignal}
    (h : amount_distribution_signal df meta = some s) :
    0 ≤ s.risk_score ∧ s.risk_score ≤ 1 ∧ s.confidence = 7/10 := by
  unfold amount_distribution_signal at h
  split at h
  · exact absurd h (by simp)
  · dsimp only at h
    split at h
    · exact absurd h (by simp)
    · split at h
      · exact absurd h (by simp)
      · split at h
        · exact absurd h (by simp)
        · rw [Option.some.injEq] at h
          subst h
          refine ⟨le_min ?_ (by norm_num), min_le_right _ _, rfl⟩
          split_ifs <;> norm_num

theorem temporal_pattern_bounds {now : ℤ} {df : DataFrame} {meta : Meta} {s : FastSignal}
    (h : temporal_pattern_signal now df meta = some s) :
    0 ≤ s.risk_score ∧ s.risk_score ≤ 1 ∧ s.confidence = 3/5 := by
  unfold temporal_pattern_signal at h
  split at h
  · exact absurd h (by simp)
  · dsimp only at h
    split at h
    · exact absurd h (by simp)
    · split at h
      · exact absurd h (by simp)
      · split at h
        · exact absurd h (by simp)
        · rw [Option.some.injEq] at h
          subst h
          refine ⟨le_min ?_ (by norm_num), min_le_right _ _, rfl⟩
          split_ifs <;> norm_num

theorem user_behavior_bounds {df : DataFrame} {meta : Meta} {s : FastSignal}
    (h : user_behavior_signal df meta = some s) :
    0 ≤ s.risk_score ∧ s.risk_score ≤ 1 ∧ s.confidence = 7/10 := by
  unfold user_behavior_signal at h
  split at h
  · exact absurd h (by simp)
  · dsimp only at h
    split at h
    · exact absurd h (by simp)
    · split at h
      · exact absurd h (by simp)
      · rw [Option.some.injEq] at h
        subst h
        refine ⟨le_min ?_ (by norm_num), min_le_right _ _, rfl⟩
        split_ifs <;> norm_num

theorem calc_signal_bounds {now : ℤ} {df : DataFrame} {meta : Meta} {s : FastSignal}
    (h : s ∈ calculate_all_signals now df meta) :
    0 ≤ s.risk_score ∧ s.risk_score ≤ 1 ∧ 0 < s.confidence := by
  unfold calculate_all_signals at h
  simp only [List.mem_append, Option.mem_toList, Option.mem_def] at h
  rcases h with ((((h | h) | h) | h) | h)
  · obtain ⟨h0, h1, hc⟩ := data_quality_bounds h
    exact ⟨h0, h1, by rw [hc]; norm_num⟩
  · obtain ⟨h0, h1, hc⟩ := file_size_bounds h
    exact ⟨h0, h1, by rw [hc]; norm_num⟩
  · obtain ⟨h0, h1, hc⟩ := amount_distribution_bounds h
    exact ⟨h0, h1, by rw [hc]; norm_num⟩
  · obtain ⟨h0, h1, hc⟩ := temporal_pattern_bounds h
    exact ⟨h0, h1, by rw [hc]; norm_num⟩
  · obtain ⟨h0, h1, hc⟩ := user_behavior_bounds h
    exact ⟨h0, h1, by rw [hc]; norm_num⟩

theorem aggregate_bounds (sigs : List FastSignal)
    (hb : ∀ s ∈ sigs, 0 ≤ s.risk_score ∧ s.risk_score ≤ 1 ∧ 0 < s.confidence) :
    0 ≤ get_aggregate_risk_score sigs ∧ get_aggregate_risk_score sigs ≤ 1 := by
  unfold get_aggregate_risk_score
  split
  · norm_num
  · dsimp only
    split
    · norm_num
    · rename_i htot
      have hw0 : 0 ≤ (sigs.map FastSignal.confidence).sum := by
        refine List.sum_nonneg ?_
        intro x hx
        obtain ⟨s, hs, rfl⟩ := List.mem_map.mp hx
        exact (hb s hs).2.2.le
      have hwpos : 0 < (sigs.map FastSignal.confidence).sum := lt_of_le_of_ne hw0 (Ne.symm htot)
      have hS0 : 0 ≤ (sigs.map (fun s => s.risk_score * s.confidence)).sum := by
        refine List.sum_nonneg ?_
        intro x hx
        obtain ⟨s, hs, rfl⟩ := List.mem_map.mp hx
        exact mul_nonneg (hb s hs).1 (hb s hs).2.2.le
      have hSW : (sigs.map (fun s => s.risk_score * s.confidence)).sum
          ≤ (sigs.map FastSignal.confidence).sum := by
        refine List.sum_le_sum ?_
        intro s hs
        exact mul_le_of_le_one_left (hb s hs).2.2.le (hb s hs).2.1
      exact ⟨div_nonneg hS0 hw0, (div_le_one hwpos).mpr hSW⟩

theorem aggregate_eq (sigs : List FastSignal) :
    get_aggregate_risk_score sigs =
      (if sigs = [] ∨ (sigs.map FastSignal.confidence).sum = 0 then 0
       else ((sigs.map (fun s => s.risk_score * s.confidence)).sum) /
            ((sigs.map FastSignal.confidence).sum)) := by
  unfold get_aggregate_risk_score
  by_cases h1 : sigs = []
  · simp [h1]
  · have he : sigs.isEmpty = false := by simpa [List.isEmpty_iff] using h1
    simp only [he, Bool.false_eq_true, if_false, h1, false_or]

/-! ## Claim C7 -/

/-- Claim C7: for every signal list produced by calculate_all_signals the
aggregate risk is in the unit interval; it is 0 exactly when the list is
empty or the total confidence weight is 0, and otherwise it is the
confidence-weighted mean of the risk scores. -/
theorem claim_C7 (now : ℤ) (df : DataFrame) (meta : Meta) :
    0 ≤ get_aggregate_risk_score (calculate_all_signals now df meta) ∧
    get_aggregate_risk_score (calculate_all_signals now df meta) ≤ 1 ∧
    get_aggregate_risk_score (calculate_all_signals now df meta) =
      (if calculate_all_signals now df meta = [] ∨
          ((calculate_all_signals now df meta).map FastSignal.confidence).sum = 0 then 0
       else (((calculate_all_signals now df meta).map
                (fun s => s.risk_score * s.confidence)).sum) /
            (((calculate_all_signals now df meta).map FastSignal.confidence).sum)) := by
  obtain ⟨h0, h1⟩ := aggregate_bounds (calculate_all_signals now df meta)
    (fun s hs => calc_signal_bounds hs)
  exact ⟨h0, h1, aggregate_eq _⟩

/-! ## Claim C1, counterexample part -/

theorem option_chunk_bounds (o : Option FastSignal) (c : ℚ) (hc : 0 ≤ c)
    (hok : ∀ s, o = some s → 0 ≤ s.risk_score ∧ s.risk_score ≤ 1 ∧ s.confidence = c) :
    0 ≤ (o.toList.map FastSignal.confidence).sum ∧
    (o.toList.map FastSignal.confidence).sum ≤ c ∧
    0 ≤ (o.toList.map (fun s => s.risk_score * s.confidence)).sum ∧
    (o.toList.map (fun s => s.risk_score * s.confidence)).sum
      ≤ (o.toList.map FastSignal.confidence).sum := by
  cases o with
  | none =>
    simp only [Option.toList_none, List.map_nil, List.sum_nil]
    exact ⟨le_rfl, hc, le_rfl, le_rfl⟩
  | some s =>
    obtain ⟨h0, h1, hcf⟩ := hok s rfl
    simp only [Option.toList_some, List.map_cons, List.map_nil, List.sum_cons,
      List.sum_nil, add_zero]
    exact ⟨by rw [hcf]; exact hc, le_of_eq hcf,
      mul_nonneg h0 (by rw [hcf]; exact hc),
      mul_le_of_le_one_left (by rw [hcf]; exact hc) h1⟩

theorem weighted_mean_cap (Wa Sa Wc Sc Wd Sd We Se : ℚ)
    (hA0 : 0 ≤ Wa) (hA1 : Wa ≤ 4/5) (hA3 : Sa ≤ Wa)
    (hC0 : 0 ≤ Wc) (hC1 : Wc ≤ 7/10) (hC3 : Sc ≤ Wc)
    (hD0 : 0 ≤ Wd) (hD1 : Wd ≤ 3/5) (hD3 : Sd ≤ Wd)
    (hE0 : 0 ≤ We) (hE1 : We ≤ 7/10) (hE3 : Se ≤ We)
    (hge : 9/10 ≤ (Sa + (0 * (3/5) + (Sc + (Sd + Se))))
      / (Wa + (3/5 + (Wc + (Wd + We))))) : False := by
  have hWpos : (0:ℚ) < Wa + (3/5 + (Wc + (Wd + We))) := by linarith
  have hmul := (le_div_iff₀ hWpos).mp hge
  nlinarith

/-- Counterexample for C1: the premise of Scenario D is unsatisfiable.  On
any 60-row dataset the file_size signal is always present with risk 0 and
confidence 0.6, every other signal has risk at most 1, and the confidence
weights total at most 3.4; the weighted mean is therefore at most 14/17,
below 0.9.  Hence no 60-row dataset has its aggregate risk driven to 0.9 by
the fast signals: the situation Scenario D describes cannot occur.  (Were
the metadata risk_score nevertheless 0.9 or more, anomaly_detection would
additionally be rejected by its own not_high_risk_already predicate.) -/
theorem claim_C1_counterexample :
    ¬ ∃ (now : ℤ) (df : DataFrame) (meta : Meta),
        df.nrows = 60 ∧
        9/10 ≤ get_aggregate_risk_score (calculate_all_signals now df meta) := by
  rintro ⟨now, df, meta, h60, hge⟩
  have hfs : file_size_signal df meta = some ⟨"file_size", 0, 3/5⟩ := by
    unfold file_size_signal
    rw [h60]
    norm_num
  have hstruct : calculate_all_signals now df meta
      = (data_quality_signal df meta).toList ++ ([(⟨"file_size", 0, 3/5⟩ : FastSignal)] ++
        ((amount_distribution_signal df meta).toList ++
        ((temporal_pattern_signal now df meta).toList ++
        (user_behavior_signal df meta).toList))) := by
    unfold calculate_all_signals
    rw [hfs]
    simp
  obtain ⟨hA0, hA1, hA2, hA3⟩ := option_chunk_bounds (data_quality_signal df meta) (4/5)
    (by norm_num) (fun s h => data_quality_bounds h)
  obtain ⟨hC0, hC1, hC2, hC3⟩ := option_chunk_bounds (amount_distribution_signal df meta) (7/10)
    (by norm_num) (fun s h => amount_distribution_bounds h)
  obtain ⟨hD0, hD1, hD2, hD3⟩ := option_chunk_bounds (temporal_pattern_signal now df meta) (3/5)
    (by norm_num) (fun s h => temporal_pattern_bounds h)
  obtain ⟨hE0, hE1, hE2, hE3⟩ := option_chunk_bounds (user_behavior_signal df meta) (7/10)
    (by norm_num) (fun s h => user_behavior_bounds h)
  rw [aggregate_eq, hstruct] at hge
  simp only [List.map_append, List.sum_append, List.map_cons, List.map_nil, List.sum_cons,
    List.sum_nil, add_zero] at hge
  split at hge
  · norm_num at hge
  · exact weighted_mean_cap _ _ _ _ _ _ _ _ hA0 hA1 hA3 hC0 hC1 hC3 hD0 hD1 hD3 hE0 hE1 hE3 hge

/-! ## Router lemmas shared by C5 and C6 -/

theorem create_plan_rules_eq (now : ℤ) (reg : Registry) (df : DataFrame) (meta : Meta) :
    (create_execution_plan now reg df meta).1.rules_to_execute
      = order_rules_for_execution reg
          (filter_rules_by_risk_and_cost reg
            (get_applicable_rules reg df
              (metaSet meta "risk_score"
                (MetaVal.q (max (get_aggregate_risk_score (calculate_all_signals now df meta)) (1/10)))))
            (max (get_aggregate_risk_score (calculate_all_signals now df meta)) (1/10))
            (metaSet meta "risk_score"
              (MetaVal.q (max (get_aggregate_risk_score (calculate_all_signals now df meta)) (1/10))))) :=
  rfl

theorem mem_rulesWithMeta {reg : Registry} {names : List String} {p : String × RuleMetadata}
    (h : p ∈ rulesWithMeta reg names) : p.1 ∈ names ∧ lookup_rule reg p.1 = some p.2 := by
  obtain ⟨n, hn, hmap⟩ := List.mem_filterMap.mp h
  cases hlk : lookup_rule reg n with
  | none => rw [hlk] at hmap; simp at hmap
  | some m =>
    rw [hlk] at hmap
    simp only [Option.map_some', Option.some.injEq] at hmap
    cases hmap
    exact ⟨hn, hlk⟩

theorem mem_costGroup {c : RuleCost} {wm : List (String × RuleMetadata)}
    {p : String × RuleMetadata} (h : p ∈ costGroup c wm) : p ∈ wm ∧ p.2.cost = c := by
  unfold costGroup at h
  rw [List.mem_insertionSort] at h
  have h' := List.mem_filter.mp h
  exact ⟨h'.1, of_decide_eq_true h'.2⟩

theorem mem_order_rules {reg : Registry} {names : List String} {n : String}
    (h : n ∈ order_rules_for_execution reg names) :
    ∃ m, lookup_rule reg n = some m ∧ n ∈ names := by
  unfold order_rules_for_execution at h
  obtain ⟨p, hp, rfl⟩ := List.mem_map.mp h
  have hwm : p ∈ rulesWithMeta reg names := by
    rcases List.mem_append.mp hp with hp' | hp'
    · rcases List.mem_append.mp hp' with hp'' | hp''
      · exact (mem_costGroup hp'').1
      · exact (mem_costGroup hp'').1
    · exact (mem_costGroup hp').1
  obtain ⟨hn, hlk⟩ := mem_rulesWithMeta hwm
  exact ⟨p.2, hlk, hn⟩

theorem mem_filter_rules {reg : Registry} {names : List String} {r : ℚ} {meta : Meta} {n : String}
    (h : n ∈ filter_rules_by_risk_and_cost reg names r meta) :
    n ∈ names ∧ ∀ m, lookup_rule reg n = some m →
      (¬(m.cost = RuleCost.expensive ∧ r < 3/10 ∧
          metaGet meta "file_type" ≠ some (MetaVal.s "financial"))
        ∧ ¬(r < m.risk_threshold)) := by
  unfold filter_rules_by_risk_and_cost at h
  have h' := List.mem_filter.mp h
  refine ⟨h'.1, ?_⟩
  intro m hm
  have hb := h'.2
  rw [hm] at hb
  simp only [Bool.and_eq_true, Bool.not_eq_true', Bool.and_eq_false_iff,
    decide_eq_true_eq, decide_eq_false_iff_not, Bool.not_eq_false', not_and, not_not] at hb
  constructor
  · rintro ⟨hexp, hrisk, hfin⟩
    rcases hb.1 with hc | hc
    · rcases hc with hc | hc
      · exact absurd hexp (by simpa using hc)
      · exact absurd hrisk (by simpa using hc)
    · exact hfin (by simpa using hc)
  · simpa using hb.2

/-! ## Claim C6 -/

/-- Claim C6: for every dataset and metadata mapping, when the floored
aggregate risk is below 0.3 and the metadata file type is not financial,
the plan contains no expensive-tier rule; and, unconditionally, the plan
never contains a rule whose risk_threshold exceeds the floored aggregate
risk. -/
theorem claim_C6 (now : ℤ) (df : DataFrame) (meta : Meta) :
    (max (get_aggregate_risk_score (calculate_all_signals now df meta)) (1/10) < 3/10 →
      metaGet meta "file_type" ≠ some (MetaVal.s "financial") →
      ((create_execution_plan now rule_registry df meta).1.rules_to_execute.filter
        (fun n => (lookup_rule rule_registry n).any
          (fun m => decide (m.cost = RuleCost.expensive)))) = [])
    ∧ ((create_execution_plan now rule_registry df meta).1.rules_to_execute.filter
      (fun n => (lookup_rule rule_registry n).any (fun m =>
        decide (max (get_aggregate_risk_score (calculate_all_signals now df meta)) (1/10)
          < m.risk_threshold)))) = [] := by
  constructor
  · intro hr hft
    rw [create_plan_rules_eq, List.filter_eq_nil_iff]
    intro n hn
    obtain ⟨m, hlk, hn'⟩ := mem_order_rules hn
    obtain ⟨-, hcond⟩ := mem_filter_rules hn'
    rw [hlk]
    simp only [Option.any_some, decide_eq_true_eq]
    intro hexp
    have hftm : metaGet (metaSet meta "risk_score"
        (MetaVal.q (max (get_aggregate_risk_score (calculate_all_signals now df meta)) (1/10))))
        "file_type" = metaGet meta "file_type" :=
      metaGet_metaSet_ne _ _ _ _ (by decide)
    exact (hcond m hlk).1 ⟨hexp, hr, by rw [hftm]; exact hft⟩
  · rw [create_plan_rules_eq, List.filter_eq_nil_iff]
    intro n hn
    obtain ⟨m, hlk, hn'⟩ := mem_order_rules hn
    obtain ⟨-, hcond⟩ := mem_filter_rules hn'
    rw [hlk]
    simp only [Option.any_some, decide_eq_true_eq]
    exact (hcond m hlk).2

/-- Witness for C6 at a pristine one-row dataset (aggregate 0, floored to
0.1 which is below 0.3) with empty metadata (no financial file type): both
conjuncts instantiated, the conditional one with its hypotheses
discharged. -/
theorem claim_C6_witness :
    ((create_execution_plan 0 rule_registry ⟨[("a", [Cell.num 1])]⟩ []).1.rules_to_execute.filter
      (fun n => (lookup_rule rule_registry n).any
        (fun m => decide (m.cost = RuleCost.expensive)))) = []
    ∧ ((create_execution_plan 0 rule_registry ⟨[("a", [Cell.num 1])]⟩ []).1.rules_to_execute.filter
      (fun n => (lookup_rule rule_registry n).any (fun m =>
        decide (max (get_aggregate_risk_score
            (calculate_all_signals 0 ⟨[("a", [Cell.num 1])]⟩ [])) (1/10)
          < m.risk_threshold)))) = [] :=
  ⟨(claim_C6 0 ⟨[("a", [Cell.num 1])]⟩ []).1 (by decide) (by decide),
   (claim_C6 0 ⟨[("a", [Cell.num 1])]⟩ []).2⟩

/-! ## Claim C5 -/

/-- The ordering guaranteed between two adjacent scheduled rule names:
either the earlier one's tier strictly precedes the later one's in the
ordinal order cheap, medium, expensive, or the tiers are equal and the
earlier priority is at least the later priority. -/
def execution_order_rel (reg : Registry) (n₁ n₂ : String) : Prop :=
  ∀ m₁ m₂, lookup_rule reg n₁ = some m₁ → lookup_rule reg n₂ = some m₂ →
    (m₁.cost.ordinal < m₂.cost.ordinal ∨ (m₁.cost = m₂.cost ∧ m₂.priority ≤ m₁.priority))

theorem order_rules_chain (reg : Registry) (names : List String) :
    List.Chain' (execution_order_rel reg) (order_rules_for_execution reg names) := by
  unfold order_rules_for_execution
  have hgroup : ∀ c : RuleCost, List.Pairwise
      (fun p q : String × RuleMetadata =>
        p.2.cost.ordinal < q.2.cost.ordinal ∨ (p.2.cost = q.2.cost ∧ q.2.priority ≤ p.2.priority))
      (costGroup c (rulesWithMeta reg names)) := by
    intro c
    have hs : List.Pairwise priority_rel (costGroup c (rulesWithMeta reg names)) :=
      List.sorted_insertionSort _ _
    refine hs.imp_of_mem ?_
    intro a b ha hb hrel
    exact Or.inr ⟨(mem_costGroup ha).2.trans (mem_costGroup hb).2.symm, hrel⟩
  have hcross : ∀ (c₁ c₂ : RuleCost), c₁.ordinal < c₂.ordinal →
      ∀ a ∈ costGroup c₁ (rulesWithMeta reg names),
      ∀ b ∈ costGroup c₂ (rulesWithMeta reg names),
        a.2.cost.ordinal < b.2.cost.ordinal ∨
          (a.2.cost = b.2.cost ∧ b.2.priority ≤ a.2.priority) := by
    intro c₁ c₂ hlt a ha b hb
    exact Or.inl (by rw [(mem_costGroup ha).2, (mem_costGroup hb).2]; exact hlt)
  have hpw : List.Pairwise
      (fun p q : String × RuleMetadata =>
        p.2.cost.ordinal < q.2.cost.ordinal ∨ (p.2.cost = q.2.cost ∧ q.2.priority ≤ p.2.priority))
      ((costGroup .cheap (rulesWithMeta reg names)) ++
        (costGroup .medium (rulesWithMeta reg names)) ++
        (costGroup .expensive (rulesWithMeta reg names))) := by
    rw [List.pairwise_append, List.pairwise_append]
    refine ⟨⟨hgroup .cheap, hgroup .medium, hcross .cheap .medium (by decide)⟩,
      hgroup .expensive, ?_⟩
    intro a ha b hb
    rcases List.mem_append.mp ha with ha' | ha'
    · exact hcross .cheap .expensive (by decide) a ha' b hb
    · exact hcross .medium .expensive (by decide) a ha' b hb
  have hpw2 : List.Pairwise
      (fun p q : String × RuleMetadata => execution_order_rel reg p.1 q.1)
      ((costGroup .cheap (rulesWithMeta reg names)) ++
        (costGroup .medium (rulesWithMeta reg names)) ++
        (costGroup .expensive (rulesWithMeta reg names))) := by
    refine hpw.imp_of_mem ?_
    intro a b ha hb hrel m₁ m₂ h₁ h₂
    have hawm : a ∈ rulesWithMeta reg names := by
      rcases List.mem_append.mp ha with ha' | ha'
      · rcases List.mem_append.mp ha' with ha'' | ha''
        · exact (mem_costGroup ha'').1
        · exact (mem_costGroup ha'').1
      · exact (mem_costGroup ha').1
    have hbwm : b ∈ rulesWithMeta reg names := by
      rcases List.mem_append.mp hb with hb' | hb'
      · rcases List.mem_append.mp hb' with hb'' | hb''
        · exact (mem_costGroup hb'').1
        · exact (mem_costGroup hb'').1
      · exact (mem_costGroup hb').1
    rw [(mem_rulesWithMeta hawm).2] at h₁
    rw [(mem_rulesWithMeta hbwm).2] at h₂
    cases h₁
    cases h₂
    exact hrel
  exact (List.pairwise_map.mpr hpw2).chain'

/-- Claim C5: in every plan produced by create_execution_plan with the
built-in registry, every adjacent pair of scheduled rules either strictly
ascends in cost tier (cheap before medium before expensive) or shares the
tier with non-increasing priority. -/
theorem claim_C5 (now : ℤ) (df : DataFrame) (meta : Meta) :
    List.Chain' (execution_order_rel rule_registry)
      (create_execution_plan now rule_registry df meta).1.rules_to_execute := by
  rw [create_plan_rules_eq]
  exact order_rules_chain _ _

/-! ## Canonicalizer lemmas -/

theorem colCells?_length {df : DataFrame} (hwf : df.WF) {a : String} {v : List Cell}
    (h : df.colCells? a = some v) : v.length = df.nrows := by
  unfold DataFrame.colCells? at h
  cases hf : df.cols.find? (fun p => p.1 == a) with
  | none => rw [hf] at h; simp at h
  | some p =>
    rw [hf] at h
    simp only [Option.map_some', Option.some.injEq] at h
    subst h
    exact hwf.2 p (List.mem_of_find?_eq_some hf)

theorem assign_ops_some_length {df : DataFrame} (hwf : df.WF)
    (mapping : List (String × List String)) {op : String × Option (List Cell)}
    (hop : op ∈ assign_ops df mapping) {v : List Cell} (hv : op.2 = some v) :
    v.length = df.nrows := by
  unfold assign_ops at hop
  rcases List.mem_append.mp hop with h | h
  · obtain ⟨cf, hcf, heq⟩ := List.mem_map.mp h
    subst heq
    simp only [Option.bind_eq_some] at hv
    obtain ⟨a, -, hcells⟩ := hv
    exact colCells?_length hwf hcells
  · obtain ⟨c, hc, heq⟩ := List.mem_map.mp h
    subst heq
    exact colCells?_length hwf hv

theorem assign_column_names (f : PFrame) (name : String) (v : Option (List Cell)) :
    (assign_column f name v).cols.map Prod.fst = f.cols.map Prod.fst ++ [name] := by
  cases v with
  | none => simp [assign_column]
  | some cells =>
    simp only [assign_column]
    split
    · simp [List.map_map, Function.comp]
    · simp

theorem assign_column_invariant (n : Nat) (f : PFrame) (name : String)
    (v : Option (List Cell)) (hv : ∀ w, v = some w → w.length = n)
    (hI : ∀ p ∈ f.cols, p.2.length = f.idx) (hJ : f.idx = 0 ∨ f.idx = n) :
    (∀ p ∈ (assign_column f name v).cols, p.2.length = (assign_column f name v).idx)
    ∧ ((assign_column f name v).idx = 0 ∨ (assign_column f name v).idx = n)
    ∧ (f.idx = n → (assign_column f name v).idx = n)
    ∧ (v.isSome = true → (assign_column f name v).idx = n) := by
  cases v with
  | none =>
    simp only [assign_column]
    refine ⟨?_, hJ, fun h => h, by simp⟩
    intro p hp
    rcases List.mem_append.mp hp with h | h
    · exact hI p h
    · rw [List.mem_singleton.mp h]
      simp
  | some cells =>
    have hlen : cells.length = n := hv cells rfl
    simp only [assign_column]
    split
    · rename_i hcond
      refine ⟨?_, Or.inr hlen, fun _ => hlen, fun _ => hlen⟩
      intro p hp
      rcases List.mem_append.mp hp with h | h
      · obtain ⟨q, hq, rfl⟩ := List.mem_map.mp h
        simp
      · rw [List.mem_singleton.mp h]
    · rename_i hcond
      have hidx : f.idx = n := by
        rcases hJ with h0 | h0
        · rcases Decidable.not_and_iff_or_not.mp hcond with hc | hc
          · exact absurd h0 hc
          · rw [Decidable.not_not] at hc
            omega
        · exact h0
      refine ⟨?_, hJ, fun h => h, fun _ => hidx⟩
      intro p hp
      rcases List.mem_append.mp hp with h | h
      · exact hI p h
      · rw [List.mem_singleton.mp h]
        simp [List.length_take]
        omega

theorem build_fold_invariant (n : Nat) (ops : List (String × Option (List Cell)))
    (f₀ : PFrame)
    (hops : ∀ op ∈ ops, ∀ v, op.2 = some v → v.length = n)
    (hI : ∀ p ∈ f₀.cols, p.2.length = f₀.idx) (hJ : f₀.idx = 0 ∨ f₀.idx = n) :
    (∀ p ∈ (ops.foldl (fun f op => assign_column f op.1 op.2) f₀).cols,
        p.2.length = (ops.foldl (fun f op => assign_column f op.1 op.2) f₀).idx)
    ∧ ((ops.foldl (fun f op => assign_column f op.1 op.2) f₀).idx = 0 ∨
        (ops.foldl (fun f op => assign_column f op.1 op.2) f₀).idx = n)
    ∧ (f₀.idx = n → (ops.foldl (fun f op => assign_column f op.1 op.2) f₀).idx = n)
    ∧ ((∃ op ∈ ops, op.2.isSome = true) →
        (ops.foldl (fun f op => assign_column f op.1 op.2) f₀).idx = n) := by
  induction ops generalizing f₀ with
  | nil =>
    refine ⟨hI, hJ, fun h => h, ?_⟩
    rintro ⟨op, hop, -⟩
    cases hop
  | cons op rest ih =>
    obtain ⟨s1, s2, s3, s4⟩ := assign_column_invariant n f₀ op.1 op.2
      (hops op (List.mem_cons_self op rest)) hI hJ
    obtain ⟨t1, t2, t3, t4⟩ := ih (assign_column f₀ op.1 op.2)
      (fun o ho v hv => hops o (List.mem_cons_of_mem op ho) v hv) s1 s2
    refine ⟨t1, t2, fun h => t3 (s3 h), ?_⟩
    rintro ⟨o, ho, hsome⟩
    rcases List.mem_cons.mp ho with rfl | ho'
    · exact t3 (s4 hsome)
    · exact t4 ⟨o, ho', hsome⟩

theorem build_fold_names (ops : List (String × Option (List Cell))) (f₀ : PFrame) :
    (ops.foldl (fun f op => assign_column f op.1 op.2) f₀).cols.map Prod.fst
      = f₀.cols.map Prod.fst ++ ops.map Prod.fst := by
  induction ops generalizing f₀ with
  | nil => simp
  | cons op rest ih =>
    rw [List.foldl_cons, ih, assign_column_names]
    simp

theorem exists_some_assign_op {df : DataFrame} (mapping : List (String × List String))
    (hne : df.cols ≠ []) :
    ∃ op ∈ assign_ops df mapping, op.2.isSome = true := by
  obtain ⟨p, hp⟩ : ∃ p, p ∈ df.cols := by
    cases hc : df.cols with
    | nil => exact absurd hc hne
    | cons q rest => exact ⟨q, hc ▸ List.mem_cons_self q rest⟩
  have hhas : df.hasCol p.1 = true := by
    unfold DataFrame.hasCol DataFrame.colCells?
    rw [Option.isSome_map']
    rw [List.find?_isSome]
    exact ⟨p, hp, by simp⟩
  by_cases hcons : p.1 ∈ (detected_schema df mapping).map Prod.fst
  · obtain ⟨pair, hpair, hfst⟩ := List.mem_map.mp hcons
    obtain ⟨cf, hcf, hmap⟩ := List.mem_filterMap.mp hpair
    cases hfind : cf.2.find? (fun a => df.hasCol a) with
    | none => rw [hfind] at hmap; simp at hmap
    | some a =>
      refine ⟨(cf.1, (cf.2.find? (fun a => df.hasCol a)).bind (fun a => df.colCells? a)),
        List.mem_append.mpr (Or.inl (List.mem_map_of_mem _ hcf)), ?_⟩
      rw [hfind]
      simp only [Option.some_bind]
      have hha : df.hasCol a = true := List.find?_some hfind
      unfold DataFrame.hasCol at hha
      exact hha
  · have hcu : p.1 ∈ unmapped_columns df mapping := by
      unfold unmapped_columns
      exact List.mem_filter.mpr ⟨List.mem_map_of_mem Prod.fst hp, decide_eq_true hcons⟩
    refine ⟨("raw_" ++ p.1, df.colCells? p.1),
      List.mem_append.mpr (Or.inr (List.mem_map_of_mem _ hcu)), ?_⟩
    unfold DataFrame.hasCol at hhas
    exact hhas

theorem dataframe_nrows_of_nil {df : DataFrame} (h : df.cols = []) : df.nrows = 0 := by
  unfold DataFrame.nrows
  rw [h]

theorem nrows_eq_idx (fr : PFrame) (hI : ∀ p ∈ fr.cols, p.2.length = fr.idx)
    (h : fr.cols = [] → fr.idx = 0) : (⟨fr.cols⟩ : DataFrame).nrows = fr.idx := by
  unfold DataFrame.nrows
  cases hc : fr.cols with
  | nil => exact (h hc).symm
  | cons p rest => exact hI p (hc ▸ List.mem_cons_self p rest)

/-! ## Claim C3 -/

/-- Claim C3: whenever canonicalize_schema returns, the canonical dataset
has exactly as many rows as the input, and every source column not consumed
by the alias mapping (the keys of the returned detected_schema) appears in
the output under the name raw_ followed by the original name. -/
theorem claim_C3 (df : DataFrame) (out : DataFrame) (md : FileMetadata)
    (hwf : df.WF) (h : canonicalize_schema df = .ok (out, md)) :
    out.nrows = df.nrows ∧
    ∀ c ∈ df.colNames, c ∉ md.detected_schema.map Prod.fst →
      ("raw_" ++ c) ∈ out.colNames := by
  unfold canonicalize_schema at h
  dsimp only at h
  split at h
  · exact absurd h (by simp)
  · split at h
    · exact absurd h (by simp)
    · split at h
      · exact absurd h (by simp)
      · rw [Except.ok.injEq, Prod.mk.injEq] at h
        obtain ⟨h1, h2⟩ := h
        subst h1
        subst h2
        have hops : ∀ op ∈ assign_ops df (field_mappings (detect_file_type df).1),
            ∀ v, op.2 = some v → v.length = df.nrows :=
          fun op hop v hv => assign_ops_some_length hwf _ hop hv
        have hinv := build_fold_invariant df.nrows
          (assign_ops df (field_mappings (detect_file_type df).1)) ⟨[], 0⟩ hops
          (by intro p hp; cases hp) (Or.inl rfl)
        have hIb : ∀ p ∈ (build_frame (assign_ops df (field_mappings (detect_file_type df).1))).cols,
            p.2.length = (build_frame (assign_ops df (field_mappings (detect_file_type df).1))).idx :=
          hinv.1
        have hJb : (build_frame (assign_ops df (field_mappings (detect_file_type df).1))).idx = 0
            ∨ (build_frame (assign_ops df (field_mappings (detect_file_type df).1))).idx
              = df.nrows := hinv.2.1
        have hSomeb : (∃ op ∈ assign_ops df (field_mappings (detect_file_type df).1),
              op.2.isSome = true) →
            (build_frame (assign_ops df (field_mappings (detect_file_type df).1))).idx
              = df.nrows := hinv.2.2.2
        have hnm : (build_frame (assign_ops df (field_mappings (detect_file_type df).1))).cols.map
              Prod.fst
            = (assign_ops df (field_mappings (detect_file_type df).1)).map Prod.fst := by
          have := build_fold_names (assign_ops df (field_mappings (detect_file_type df).1)) ⟨[], 0⟩
          simpa using this
        constructor
        · by_cases hn : df.nrows = 0
          · have hidx0 : (build_frame (assign_ops df (field_mappings (detect_file_type df).1))).idx
                = 0 := by
              rcases hJb with h0 | h0
              · exact h0
              · omega
            rw [nrows_eq_idx _ hIb (fun _ => hidx0), hidx0, hn]
          · have hcne : df.cols ≠ [] := fun he => hn (dataframe_nrows_of_nil he)
            have hidx := hSomeb (exists_some_assign_op _ hcne)
            have hcolsne :
                (build_frame (assign_ops df (field_mappings (detect_file_type df).1))).cols
                  ≠ [] := by
              intro he
              rw [he] at hnm
              obtain ⟨op, hop, -⟩ :=
                exists_some_assign_op (field_mappings (detect_file_type df).1) hcne
              have hopsnil : assign_ops df (field_mappings (detect_file_type df).1) = [] := by
                have h2 := hnm.symm
                rw [List.map_nil] at h2
                exact List.map_eq_nil_iff.mp h2
              rw [hopsnil] at hop
              cases hop
            rw [nrows_eq_idx _ hIb (fun he => absurd he hcolsne), hidx]
        · intro c hc hncons
          have hcu : c ∈ unmapped_columns df (field_mappings (detect_file_type df).1) :=
            List.mem_filter.mpr ⟨hc, decide_eq_true hncons⟩
          show ("raw_" ++ c) ∈
            (⟨(build_frame (assign_ops df (field_mappings (detect_file_type df).1))).cols⟩ :
              DataFrame).colNames
          unfold DataFrame.colNames
          dsimp only
          rw [hnm]
          have hop : ("raw_" ++ c, df.colCells? c)
              ∈ assign_ops df (field_mappings (detect_file_type df).1) :=
            List.mem_append.mpr (Or.inr (List.mem_map_of_mem _ hcu))
          exact List.mem_map_of_mem Prod.fst hop

def c3_witness_input : DataFrame := ⟨[("amount", [Cell.num 1])]⟩

def c3_witness_out : DataFrame :=
  ⟨[("id", [Cell.null]), ("timestamp", [Cell.null]), ("amount", [Cell.num 1]),
    ("merchant", [Cell.null]), ("location", [Cell.null]), ("user_id", [Cell.null]),
    ("payment_method", [Cell.null]), ("ip_address", [Cell.null]),
    ("device_info", [Cell.null])]⟩

def c3_witness_md : FileMetadata :=
  ⟨"financial", [("amount", "amount")], 1/5, 1, false, true, false, 4/15⟩

/-- Witness for C3: a one-row financial dataset with single column amount;
the canonical frame keeps the one row and the metadata records the consumed
amount column, leaving nothing to prefix. -/
theorem claim_C3_witness :
    DataFrame.WF c3_witness_input ∧
    canonicalize_schema c3_witness_input = .ok (c3_witness_out, c3_witness_md) ∧
    c3_witness_out.nrows = c3_witness_input.nrows :=
  ⟨by decide, rfl,
    (claim_C3 c3_witness_input c3_witness_out c3_witness_md (by decide) rfl).1⟩
